import Mathlib

/-!
# Verification of the Eduaccess audio core

Shallow embedding of the speech-synthesis cache / circuit-breaker layer
(`src/services/speechService.ts`), the continuous capture segmenter and
transcription dispatcher (`Gemini3ContinuousSession` in
`src/services/geminiService.ts`), and the live playback scheduler and
capture path (`LiveAudioSession` in `src/services/geminiService.ts`).

Conventions:
- JS strings are Lean `String`s; `String.prototype.trim` is modelled by
  `jsTrim`, `String.prototype.includes` by `strIncludes`.
- `AudioBuffer` objects are abstracted to `Nat` identifiers; decoded
  durations and arrival clocks are exact rationals `ℚ`.
- Network calls are modelled by an environment value (`TTSOutcome`,
  `TranscribeOutcome`) giving the outcome the promise settles with.
- Encoding helpers (`downsampleTo16k`, `float32ToPCM16`,
  `arrayBufferToBase64`, `createWavHeader`, `decodeAudioData`) live in
  `audioUtils.ts`; payloads are carried abstractly as the raw sample
  lists since no property here depends on the byte encoding.
-/

/-- Models `String.prototype.trim`: drop leading and trailing whitespace. -/
def trimList (l : List Char) : List Char :=
  ((l.dropWhile Char.isWhitespace).reverse.dropWhile Char.isWhitespace).reverse

/-- JS `s.trim()`. -/
def jsTrim (s : String) : String := String.mk (trimList s.data)

/-- JS `s.includes(sub)`: substring containment. -/
def strIncludes (s sub : String) : Bool := decide (sub.data <:+: s.data)

/-! ## speechService.ts : cache + circuit breaker -/

/-- `MAX_CACHE_SIZE` (speechService.ts line 11). -/
def MAX_CACHE_SIZE : Nat := 20

/-- The characters removed by `text.replace(/[*#_`]/g, '')`
(speechService.ts line 88); `Char.ofNat 96` is the backtick. -/
def isMarkupChar (c : Char) : Bool :=
  c = '*' || c = '#' || c = '_' || c = Char.ofNat 96

/-- Distance to the closing bracket for one non-greedy `\[.*?\]` match:
`.` does not match line terminators, so a newline before any `]` kills
the match. -/
def findCloseBracket : List Char → Option Nat
  | [] => none
  | c :: cs =>
    if c = ']' then some 0
    else if c = '\n' ∨ c = '\r' then none
    else (findCloseBracket cs).map (· + 1)

/-- Global replacement `text.replace(/\[.*?\]/g, '')` (speechService.ts
line 89): left-to-right scan, each `[` is deleted together with
everything up to the nearest following `]` (when one exists on the same
line); an unmatched `[` is kept verbatim. Structural recursion on a
fuel argument; every step shortens the list, so fuel = length never
runs out. -/
def stripBracketsFuel : Nat → List Char → List Char
  | 0, _ => []
  | _ + 1, [] => []
  | fuel + 1, c :: cs =>
    if c = '[' then
      match findCloseBracket cs with
      | some j => stripBracketsFuel fuel (cs.drop (j + 1))
      | none => c :: stripBracketsFuel fuel cs
    else c :: stripBracketsFuel fuel cs

def stripBrackets (l : List Char) : List Char := stripBracketsFuel l.length l

/-- The `spokenText` normalization in `speak` (speechService.ts lines
87-90): strip markup characters, remove bracketed spans, trim. -/
def cleanText (text : String) : String :=
  jsTrim (String.mk (stripBrackets (text.data.filter (fun c => !isMarkupChar c))))

/-- The speech-service module state: the insertion-ordered cache
(`audioCache : Map<string, AudioBuffer>`), the circuit-breaker flag
(`isQuotaExhausted`), and the currently playing source
(`currentSource`). -/
structure SpeechState where
  audioCache : List (String × Nat)
  isQuotaExhausted : Bool
  currentSource : Option Nat
deriving Repr, DecidableEq

/-- Module initial state: empty cache, breaker closed, nothing playing. -/
def speechInit : SpeechState := ⟨[], false, none⟩

/-- `audioCache.has(k)`. -/
def cacheHas (c : List (String × Nat)) (k : String) : Bool :=
  c.any (fun p => p.1 = k)

/-- `audioCache.get(k)`. -/
def cacheGet (c : List (String × Nat)) (k : String) : Option Nat :=
  (c.find? (fun p => p.1 = k)).map (·.2)

/-- `audioCache.set(k, v)`: a JS Map updates an existing key in place
(insertion order kept) and appends a fresh key at the end. -/
def cacheSet (c : List (String × Nat)) (k : String) (v : Nat) : List (String × Nat) :=
  if cacheHas c k then c.map (fun p => if p.1 = k then (k, v) else p)
  else c ++ [(k, v)]

/-- The cache-insertion block of `speak` (speechService.ts lines
137-143): when at capacity, `audioCache.keys().next().value` (the
first-inserted key) is deleted, then the new entry is set. -/
def cachePut (c : List (String × Nat)) (k : String) (v : Nat) : List (String × Nat) :=
  let c1 := if MAX_CACHE_SIZE ≤ c.length then c.tail else c
  cacheSet c1 k v

/-- The error value reaching the catch block of `speak`:
`JSON.stringify(err)` and `err.message` (speechService.ts lines 151-152). -/
structure TTSError where
  jsonStr : String
  message : Option String
deriving Repr, DecidableEq

/-- The quota-pattern test of `speak`'s catch block (speechService.ts
line 152): `errString.includes('429') ||
errString.includes('RESOURCE_EXHAUSTED') || err.message?.includes('quota')`. -/
def isQuotaError (err : TTSError) : Bool :=
  strIncludes err.jsonStr "429" || strIncludes err.jsonStr "RESOURCE_EXHAUSTED" ||
    (match err.message with
     | some m => strIncludes m "quota"
     | none => false)

/-- Outcome of the `generateTTS` + decode chain inside `speak`'s try
block: a decoded buffer, or a thrown error. -/
inductive TTSOutcome where
  | ok (buf : Nat)
  | fail (err : TTSError)
deriving Repr, DecidableEq

/-- What one `speak` call audibly does. -/
inductive SpeakAction where
  | noop
  | fallback
  | playCached (buf : Nat)
  | playSynth (buf : Nat)
deriving Repr, DecidableEq

/-- One `speak(text)` call (speechService.ts lines 83-159). Returns the
new module state, the action taken, and whether the network synthesis
call (`generateTTS`) was issued. `env` is the outcome the synthesis +
decode chain would settle with if reached. -/
def speakStep (s : SpeechState) (text : String) (env : TTSOutcome) :
    SpeechState × SpeakAction × Bool :=
  if text = "" then (s, SpeakAction.noop, false)
  else
    let spokenText := cleanText text
    if spokenText = "" then (s, SpeakAction.noop, false)
    else
      -- stopSpeech()
      let s0 : SpeechState := { s with currentSource := none }
      let isShortCommand := spokenText.length < 30
      if s0.isQuotaExhausted then (s0, SpeakAction.fallback, false)
      else if isShortCommand && !cacheHas s0.audioCache spokenText then
        (s0, SpeakAction.fallback, false)
      else if cacheHas s0.audioCache spokenText then
        match cacheGet s0.audioCache spokenText with
        | some buf => ({ s0 with currentSource := some buf }, SpeakAction.playCached buf, false)
        | none => (s0, SpeakAction.noop, false)  -- unreachable: has ⟹ get succeeds
      else
        match env with
        | TTSOutcome.ok buf =>
          let s1 : SpeechState :=
            if spokenText.length < 100 then
              { s0 with audioCache := cachePut s0.audioCache spokenText buf }
            else s0
          ({ s1 with currentSource := some buf }, SpeakAction.playSynth buf, true)
        | TTSOutcome.fail err =>
          let s1 : SpeechState :=
            if isQuotaError err then { s0 with isQuotaExhausted := true } else s0
          (s1, SpeakAction.fallback, true)

/-- A sequence of `speak` calls; returns the final state and the
per-call (action, networkCalled) log. -/
def speakRun (s : SpeechState) : List (String × TTSOutcome) →
    SpeechState × List (SpeakAction × Bool)
  | [] => (s, [])
  | (t, env) :: rest =>
    let r := speakStep s t env
    let rr := speakRun r.1 rest
    (rr.1, (r.2.1, r.2.2) :: rr.2)

/-- C10: an input that normalizes to empty is a complete no-op. -/
theorem speak_empty_noop (s : SpeechState) (t : String) (env : TTSOutcome)
    (h : cleanText t = "") : speakStep s t env = (s, SpeakAction.noop, false) := by
  unfold speakStep
  by_cases ht : t = "" <;> simp [ht, h]

/-- Evaluating `cleanText` on the empty string. -/
lemma cleanText_empty : cleanText "" = "" := by decide

/-- Behaviour of one `speak` call while the breaker is open: the flag
stays set, no network call happens, and (for non-degenerate input) the
fallback voice is used. -/
lemma speakStep_open (s : SpeechState) (t : String) (env : TTSOutcome)
    (h : s.isQuotaExhausted = true) :
    (speakStep s t env).1.isQuotaExhausted = true
    ∧ (speakStep s t env).2.2 = false
    ∧ (cleanText t ≠ "" → (speakStep s t env).2.1 = SpeakAction.fallback) := by
  unfold speakStep
  by_cases ht : t = ""
  · subst ht
    simp [h, cleanText_empty]
  · by_cases hc : cleanText t = ""
    · simp [ht, hc, h]
    · simp [ht, hc, h]

/-- C5: a non-empty normalized text shorter than 30 characters that is
not cached, with the breaker closed, goes to the fallback voice with no
network call. -/
theorem speak_short_uncached_fallback (s : SpeechState) (t : String) (env : TTSOutcome)
    (hne : cleanText t ≠ "") (hshort : (cleanText t).length < 30)
    (hmiss : cacheHas s.audioCache (cleanText t) = false)
    (hclosed : s.isQuotaExhausted = false) :
    (speakStep s t env).2.1 = SpeakAction.fallback ∧ (speakStep s t env).2.2 = false := by
  have ht : t ≠ "" := by
    intro h
    subst h
    exact hne cleanText_empty
  unfold speakStep
  simp [ht, hne, hclosed, hshort, hmiss]

theorem speak_short_uncached_fallback_witness :
    (speakStep speechInit "Home" (TTSOutcome.ok 0)).2.1 = SpeakAction.fallback
    ∧ (speakStep speechInit "Home" (TTSOutcome.ok 0)).2.2 = false :=
  speak_short_uncached_fallback speechInit "Home" (TTSOutcome.ok 0)
    (by decide) (by decide) (by decide) (by decide)

/-- C1, counterexample to the claim as stated: with the breaker open, a
`speak` call whose text normalizes to empty performs no fallback speech
at all (it is a no-op), so not every post-trip call "uses the fallback
voice". -/
theorem breaker_claim_counterexample :
    (⟨[], true, none⟩ : SpeechState).isQuotaExhausted = true
    ∧ (speakStep ⟨[], true, none⟩ "[x]" (TTSOutcome.ok 0)).2.1 ≠ SpeakAction.fallback := by
  constructor
  · rfl
  · decide

/-- C1 (amended): the breaker starts closed; a synthesis attempt that
fails with a quota-pattern error sets it; and once set it stays set
forever, every later `speak` call issues no network call, and every
later call whose normalized text is non-empty uses the fallback voice. -/
theorem breaker_latch :
    speechInit.isQuotaExhausted = false
    ∧ (∀ s t err, (speakStep s t (TTSOutcome.fail err)).2.2 = true →
        isQuotaError err = true →
        (speakStep s t (TTSOutcome.fail err)).1.isQuotaExhausted = true)
    ∧ (∀ s inputs, s.isQuotaExhausted = true →
        (speakRun s inputs).1.isQuotaExhausted = true
        ∧ ∀ p ∈ inputs.zip (speakRun s inputs).2,
            p.2.2 = false ∧ (cleanText p.1.1 ≠ "" → p.2.1 = SpeakAction.fallback)) := by
  refine ⟨rfl, ?_, ?_⟩
  · intro s t err hnet hq
    unfold speakStep at hnet ⊢
    by_cases ht : t = ""
    · simp [ht] at hnet
    · by_cases hc : cleanText t = ""
      · simp [ht, hc] at hnet
      · by_cases hopen : s.isQuotaExhausted
        · simp [ht, hc, hopen] at hnet
        · by_cases hshort : (cleanText t).length < 30 ∧
              cacheHas s.audioCache (cleanText t) = false
          · simp [ht, hc, hopen, hshort.1, hshort.2] at hnet
          · by_cases hhit : cacheHas s.audioCache (cleanText t)
            · rcases hg : cacheGet s.audioCache (cleanText t) with _ | b <;>
                simp [ht, hc, hopen, hhit, hg] at hnet
            · have hns : ¬ (cleanText t).length < 30 := by
                intro hlt
                exact hshort ⟨hlt, by simpa using hhit⟩
              simp [ht, hc, hopen, hhit, hns, hq]
  · intro s inputs hopen
    induction inputs generalizing s with
    | nil => exact ⟨hopen, by simp [speakRun]⟩
    | cons p rest ih =>
      obtain ⟨h1, h2, h3⟩ := speakStep_open s p.1 p.2 hopen
      obtain ⟨ihFlag, ihLog⟩ := ih (speakStep s p.1 p.2).1 h1
      refine ⟨?_, ?_⟩
      · simpa [speakRun] using ihFlag
      · intro q hq
        simp only [speakRun, List.zip_cons_cons, List.mem_cons] at hq
        rcases hq with hq | hq
        · subst hq
          exact ⟨h2, h3⟩
        · exact ihLog q hq

theorem breaker_latch_witness :
    (speakRun ⟨[], true, none⟩
        [("Hello world, a fairly long sentence.", TTSOutcome.ok 5)]).1.isQuotaExhausted = true
    ∧ (speakStep ⟨[], false, none⟩ "Hello world, a fairly long sentence."
        (TTSOutcome.fail ⟨"error 429", none⟩)).1.isQuotaExhausted = true := by
  constructor
  · exact (breaker_latch.2.2 ⟨[], true, none⟩ _ rfl).1
  · exact breaker_latch.2.1 ⟨[], false, none⟩ _ _ (by decide) (by decide)

theorem speak_empty_noop_witness :
    cleanText "[skip me] *#" = "" ∧
      speakStep ⟨[("hello", 4)], true, some 7⟩ "[skip me] *#" (TTSOutcome.ok 0) =
        (⟨[("hello", 4)], true, some 7⟩, SpeakAction.noop, false) :=
  ⟨by decide, speak_empty_noop _ _ _ (by decide)⟩

lemma cacheSet_length (c : List (String × Nat)) (k : String) (v : Nat) :
    (cacheSet c k v).length = if cacheHas c k then c.length else c.length + 1 := by
  unfold cacheSet
  split <;> simp

lemma cachePut_length_le (c : List (String × Nat)) (k : String) (v : Nat)
    (h : c.length ≤ MAX_CACHE_SIZE) : (cachePut c k v).length ≤ MAX_CACHE_SIZE := by
  have ht : c.tail.length = c.length - 1 := List.length_tail c
  unfold cachePut
  split
  · rw [cacheSet_length]
    split <;> (simp only [MAX_CACHE_SIZE] at *) <;> omega
  · rw [cacheSet_length]
    split <;> (simp only [MAX_CACHE_SIZE] at *) <;> omega

lemma cacheHas_tail (c : List (String × Nat)) (k : String)
    (h : cacheHas c k = false) : cacheHas c.tail k = false := by
  cases c with
  | nil => simp [cacheHas]
  | cons p rest =>
    simp only [cacheHas, List.any_cons, Bool.or_eq_false_iff] at h
    exact h.2

lemma cachePut_at_capacity (c : List (String × Nat)) (k : String) (v : Nat)
    (hlen : c.length = MAX_CACHE_SIZE) (hmiss : cacheHas c k = false) :
    cachePut c k v = c.tail ++ [(k, v)]
    ∧ (cachePut c k v).length = MAX_CACHE_SIZE := by
  have htail : cacheHas c.tail k = false := cacheHas_tail c k hmiss
  have h20 : MAX_CACHE_SIZE ≤ c.length := hlen.ge
  constructor
  · unfold cachePut cacheSet
    simp [h20, htail]
  · unfold cachePut
    rw [if_pos h20, cacheSet_length, if_neg (by simp [htail]), List.length_tail]
    rw [hlen]
    simp [MAX_CACHE_SIZE]

/-- All branches of `speakStep` keep the cache within capacity. -/
lemma speakStep_cache_length (s : SpeechState) (t : String) (env : TTSOutcome)
    (h : s.audioCache.length ≤ MAX_CACHE_SIZE) :
    (speakStep s t env).1.audioCache.length ≤ MAX_CACHE_SIZE := by
  simp only [speakStep]
  repeat' split
  all_goals first
    | exact h
    | simpa using h
    | simpa using cachePut_length_le _ _ _ h

/-- Texts whose normalized form reaches the cache-size threshold are
never written to the cache. -/
lemma speakStep_long_not_cached (s : SpeechState) (t : String) (env : TTSOutcome)
    (h : 100 ≤ (cleanText t).length) :
    (speakStep s t env).1.audioCache = s.audioCache := by
  simp only [speakStep]
  repeat' split
  all_goals first
    | rfl
    | omega

/-- C6: the cache never exceeds 20 entries; inserting a 21st distinct
cacheable text evicts exactly the first-inserted entry (strict FIFO),
leaving the size at 20; texts of normalized length ≥ 100 are never
cached. -/
theorem speech_cache_bounded_fifo :
    (∀ s t env, s.audioCache.length ≤ MAX_CACHE_SIZE →
        (speakStep s t env).1.audioCache.length ≤ MAX_CACHE_SIZE)
    ∧ (∀ s t v, s.isQuotaExhausted = false →
        30 ≤ (cleanText t).length → (cleanText t).length < 100 →
        cacheHas s.audioCache (cleanText t) = false →
        s.audioCache.length = MAX_CACHE_SIZE →
        (speakStep s t (TTSOutcome.ok v)).1.audioCache
            = s.audioCache.tail ++ [(cleanText t, v)]
        ∧ (speakStep s t (TTSOutcome.ok v)).1.audioCache.length = MAX_CACHE_SIZE)
    ∧ (∀ s t env, 100 ≤ (cleanText t).length →
        (speakStep s t env).1.audioCache = s.audioCache) := by
  refine ⟨speakStep_cache_length, ?_, speakStep_long_not_cached⟩
  intro s t v hclosed h30 h100 hmiss hlen
  have hne : cleanText t ≠ "" := by
    intro h
    rw [h] at h30
    simp [String.length] at h30
  have ht : t ≠ "" := fun h => hne (h ▸ cleanText_empty)
  have hns : ¬ (cleanText t).length < 30 := by omega
  simp only [speakStep]
  simp [ht, hne, hclosed, hns, hmiss, h100]
  exact cachePut_at_capacity _ _ _ hlen hmiss

/-- A concrete 20-entry cache, in insertion order. -/
def demoCache : List (String × Nat) :=
  [("ka", 1), ("kb", 2), ("kc", 3), ("kd", 4), ("ke", 5), ("kf", 6), ("kg", 7),
   ("kh", 8), ("ki", 9), ("kj", 10), ("kk", 11), ("kl", 12), ("km", 13),
   ("kn", 14), ("ko", 15), ("kp", 16), ("kq", 17), ("kr", 18), ("ks", 19),
   ("kt", 20)]

/-- A 36-character text that `cleanText` leaves unchanged. -/
def demoLongText : String := "abcdefghijklmnopqrstuvwxyz0123456789"

theorem speech_cache_bounded_fifo_witness :
    (speakStep ⟨demoCache, false, none⟩ demoLongText (TTSOutcome.ok 99)).1.audioCache
      = demoCache.tail ++ [(cleanText demoLongText, 99)] :=
  (speech_cache_bounded_fifo.2.1 ⟨demoCache, false, none⟩ demoLongText 99
    rfl (by decide) (by decide) (by decide) rfl).1

/-! ## geminiService.ts : Gemini3ContinuousSession (capture segmenter +
transcription dispatcher) -/

/-- The mutable fields of `Gemini3ContinuousSession` driving segmentation
(geminiService.ts lines 117-123 and the `silenceStart` local of
`connect`), plus the sample rate the code reads from the audio context.
Times are milliseconds (`Date.now()`), samples exact rationals. -/
structure ContState where
  isConnected : Bool
  buffer : List (List ℚ)
  bufferLength : Nat
  isProcessing : Bool
  silenceStart : ℚ
  rate : ℚ
deriving Repr, DecidableEq

/-- The per-frame silence test (geminiService.ts lines 150-160):
`rms = sqrt(sum/len) * 400` and `isSilent = rms < 5`. Since
`sqrt(sum/len)*400 < 5 ↔ sum/len < 1/6400 ↔ 6400*sum < len` for a
non-empty frame, the comparison is expressed without square roots; on an
empty frame the RMS is NaN in JS and every comparison is false. -/
def frameIsSilent (samples : List ℚ) : Bool :=
  if samples.length = 0 then false
  else decide (6400 * (samples.map (fun x => x * x)).sum < (samples.length : ℚ))

/-- The synchronous prefix of `processBuffer` (geminiService.ts lines
186-192): empty buffer returns immediately; otherwise the in-flight
flag is set and the accumulated buffer is taken as the segment. -/
def processBufferStart (s : ContState) : ContState × Option (List (List ℚ)) :=
  if s.buffer = [] then (s, none)
  else ({ s with isProcessing := true, buffer := [], bufferLength := 0 }, some s.buffer)

/-- Outcome of the `transcribeAudio` call awaited inside
`processBuffer`. -/
inductive TranscribeOutcome where
  | ok (text : String)
  | fail (err : String)
deriving Repr, DecidableEq

/-- The response filter of `processBuffer` (geminiService.ts line 221):
`text && text.trim().length > 0 && text !== "No transcription generated."`. -/
def shouldSurface (text : String) : Bool :=
  text != "" && decide (0 < (jsTrim text).length) && text != "No transcription generated."

/-- What one finished dispatch reports: the state after the
`finally` block, the transcript surfaced to `onTranscript` (if any),
and the message surfaced to `onError` (if any). -/
structure DispatchResult where
  state : ContState
  transcript : Option String
  errorCb : Option String
deriving Repr, DecidableEq

/-- The asynchronous tail of `processBuffer` (geminiService.ts lines
218-229): on success the filtered text is surfaced; on failure the
error is only logged; either way `finally` clears the in-flight flag
and nothing else changes. -/
def processBufferFinish (s : ContState) (outcome : TranscribeOutcome) : DispatchResult :=
  match outcome with
  | TranscribeOutcome.ok text =>
    { state := { s with isProcessing := false },
      transcript := if shouldSurface text then some text else none,
      errorCb := none }
  | TranscribeOutcome.fail _ =>
    { state := { s with isProcessing := false }, transcript := none, errorCb := none }

/-- One `onaudioprocess` callback of `Gemini3ContinuousSession.connect`
(geminiService.ts lines 145-173): gate on `isConnected`, update the
silence clock, append the frame, and evaluate the flush triggers;
`dispatched` is the segment handed to `processBuffer` when they fire. -/
def onFrame (s : ContState) (samples : List ℚ) (now : ℚ) :
    ContState × Option (List (List ℚ)) :=
  if s.isConnected = false then (s, none)
  else
    let silenceStart := if frameIsSilent samples then s.silenceStart else now
    let buffer := s.buffer ++ [samples]
    let bufferLength := s.bufferLength + samples.length
    let duration : ℚ := (bufferLength : ℚ) / s.rate
    let silenceDuration := now - silenceStart
    let s1 : ContState := { s with buffer := buffer, bufferLength := bufferLength,
                                   silenceStart := silenceStart }
    if !s.isProcessing ∧ (4 < duration ∨ (4/5 < duration ∧ 400 < silenceDuration)) then
      processBufferStart s1
    else (s1, none)

/-- `Gemini3ContinuousSession.disconnect` (geminiService.ts lines
232-248): clears the connected flag and the pending buffer (the device
and context teardown has no counterpart in this state). -/
def contDisconnect (s : ContState) : ContState :=
  { s with isConnected := false, buffer := [] }

/-- A segmenter state with a segment already in flight and more than 4s
of audio accumulated at 16 kHz. -/
def stuckSegmenter : ContState := ⟨true, [[1]], 65000, true, 0, 16000⟩

/-- C4, counterexample to the claim as stated: with a dispatch already
in flight (`isProcessing = true`), a frame arriving with over 4 s of
accumulated audio triggers no forced flush. -/
theorem segmenter_claim_counterexample :
    stuckSegmenter.isConnected = true
    ∧ 4 < (stuckSegmenter.bufferLength : ℚ) / stuckSegmenter.rate
    ∧ (onFrame stuckSegmenter [] 0).2 = none := by
  refine ⟨rfl, by norm_num [stuckSegmenter], ?_⟩
  simp [onFrame, stuckSegmenter]

/-- C4 (amended): on every frame processed while connected and with no
dispatch in flight, a segment is flushed exactly when the accumulated
duration (including this frame) exceeds 4 s, or exceeds 0.8 s with more
than 400 ms elapsed since the last speaking-level sample. -/
theorem segmenter_flush_triggers (s : ContState) (samples : List ℚ) (now : ℚ)
    (hconn : s.isConnected = true) (hidle : s.isProcessing = false) :
    (onFrame s samples now).2 ≠ none ↔
      (4 < ((s.bufferLength : ℚ) + (samples.length : ℚ)) / s.rate
        ∨ (4/5 < ((s.bufferLength : ℚ) + (samples.length : ℚ)) / s.rate
            ∧ 400 < now - (if frameIsSilent samples then s.silenceStart else now))) := by
  have hb : s.buffer ++ [samples] ≠ [] := by simp
  by_cases htrig : (4 < ((s.bufferLength : ℚ) + (samples.length : ℚ)) / s.rate
      ∨ (4/5 < ((s.bufferLength : ℚ) + (samples.length : ℚ)) / s.rate
          ∧ 400 < now - (if frameIsSilent samples then s.silenceStart else now)))
  · simp [onFrame, hconn, hidle, htrig, processBufferStart, hb]
  · simp [onFrame, hconn, hidle, htrig]

theorem segmenter_flush_triggers_witness :
    (onFrame ⟨true, [[1]], 65000, false, 0, 16000⟩ [] 0).2 ≠ none := by
  have h := segmenter_flush_triggers ⟨true, [[1]], 65000, false, 0, 16000⟩ [] 0 rfl rfl
  exact h.mpr (Or.inl (by norm_num))

/-- A string has positive length exactly when it is non-empty. -/
lemma string_length_pos (s : String) : 0 < s.length ↔ s ≠ "" := by
  rw [Ne, String.ext_iff]
  cases s with
  | mk data => cases data <;> simp [String.length]

/-- C7: the dispatcher surfaces a transcription exactly when it is
non-empty after trimming and differs from the literal sentinel. -/
theorem transcript_filter_iff (s : ContState) (text : String) :
    (processBufferFinish s (TranscribeOutcome.ok text)).transcript = some text
      ↔ (jsTrim text ≠ "" ∧ text ≠ "No transcription generated.") := by
  by_cases h2 : text = "No transcription generated."
  · subst h2
    simp [processBufferFinish, shouldSurface]
  · by_cases h1 : jsTrim text = ""
    · have hz : ¬ 0 < (jsTrim text).length := by
        rw [h1]
        simp [String.length]
      simp [processBufferFinish, shouldSurface, h1, h2, hz]
    · have h0 : text ≠ "" := by
        intro h
        apply h1
        rw [h]
        decide
      have hp : 0 < (jsTrim text).length := (string_length_pos _).mpr h1
      simp [processBufferFinish, shouldSurface, h0, h1, h2, hp]

/-- C8: a failed dispatch only clears the in-flight flag; the session
stays connected, the freshly accumulating buffer is untouched, the
failed segment is not re-queued, and neither the transcript callback
nor the error callback fires. -/
theorem dispatch_failure_recovery (s : ContState) (err : String) :
    (processBufferFinish s (TranscribeOutcome.fail err)).state
        = { s with isProcessing := false }
    ∧ (processBufferFinish s (TranscribeOutcome.fail err)).state.isConnected = s.isConnected
    ∧ (processBufferFinish s (TranscribeOutcome.fail err)).state.buffer = s.buffer
    ∧ (processBufferFinish s (TranscribeOutcome.fail err)).transcript = none
    ∧ (processBufferFinish s (TranscribeOutcome.fail err)).errorCb = none :=
  ⟨rfl, rfl, rfl, rfl, rfl⟩

/-! ## geminiService.ts : LiveAudioSession (capture path + playback
scheduler) -/

/-- The speaking test of `LiveAudioSession`'s capture callback
(geminiService.ts line 384): `rms > 5` with `rms = sqrt(sum/len)*400`,
i.e. `len < 6400*sum` for a non-empty frame; on an empty frame the RMS
is NaN and the comparison is false. -/
def frameLoud (samples : List ℚ) : Bool :=
  if samples.length = 0 then false
  else decide ((samples.length : ℚ) < 6400 * (samples.map (fun x => x * x)).sum)

/-- Capture-side fields of `LiveAudioSession` (geminiService.ts lines
261-265): the connected flag and the silence-watchdog state. -/
structure LiveInState where
  isConnected : Bool
  lastSpeechTime : ℚ
  silenceTriggered : Bool
deriving Repr, DecidableEq

/-- Result of one capture callback: the new state, the payload queued
behind the session promise (abstracted as the raw samples), and
whether the one-shot silence signal fired. -/
structure CaptureResult where
  state : LiveInState
  pending : Option (List ℚ)
  silenceFired : Bool
deriving Repr, DecidableEq

/-- One `onaudioprocess` callback of `startAudioInput` (geminiService.ts
lines 369-422): the entry check on `isConnected`, the silence watchdog,
and the payload handed to `sessionPromise.then`. -/
def captureCallback (s : LiveInState) (samples : List ℚ) (now : ℚ) : CaptureResult :=
  if s.isConnected = false then ⟨s, none, false⟩
  else if frameLoud samples then
    ⟨{ s with lastSpeechTime := now, silenceTriggered := false }, some samples, false⟩
  else if !s.silenceTriggered ∧ 3000 < now - s.lastSpeechTime then
    ⟨{ s with silenceTriggered := true }, some samples, true⟩
  else ⟨s, some samples, false⟩

/-- The continuation inside `sessionPromise.then` (geminiService.ts
lines 409-421): `isConnected` is read again when the promise resolves;
only if it is still set is `sendRealtimeInput` reached. -/
def deliverSend (connectedAtResolve : Bool) (pending : Option (List ℚ)) :
    Option (List ℚ) :=
  match pending with
  | none => none
  | some payload => if connectedAtResolve then some payload else none

/-- A scheduled output buffer: start time and duration in seconds of
the output clock. -/
structure Slot where
  start : ℚ
  dur : ℚ
deriving Repr, DecidableEq

def slotEnd (sl : Slot) : ℚ := sl.start + sl.dur

/-- Output-side fields of `LiveAudioSession`: `nextStartTime` and the
`sources` set of scheduled/playing buffers (geminiService.ts lines
259-260), each source abstracted to its slot. -/
structure PlayState where
  nextStartTime : ℚ
  sources : List Slot
deriving Repr, DecidableEq

/-- The scheduling tail of `playAudioChunk` (geminiService.ts lines
439-449): `nextStartTime = max(currentTime, nextStartTime)`, start the
source there, advance `nextStartTime` by the buffer duration, and
remember the source. -/
def playChunk (s : PlayState) (now dur : ℚ) : PlayState × Slot :=
  let start := max now s.nextStartTime
  (⟨start + dur, s.sources ++ [⟨start, dur⟩]⟩, ⟨start, dur⟩)

/-- `stopAudioOutput` (geminiService.ts lines 455-461): stop every
source in the set, clear the set, reset `nextStartTime` to 0. Returns
the list of sources that were stopped. -/
def stopAudioOutput (s : PlayState) : PlayState × List Slot :=
  (⟨0, []⟩, s.sources)

/-- A sequence of successfully decoded chunks submitted to
`playAudioChunk`: each element is (output-clock value at submission,
buffer duration). Returns the final state and the scheduled slots. -/
def scheduleRun (s : PlayState) : List (ℚ × ℚ) → PlayState × List Slot
  | [] => (s, [])
  | (now, dur) :: rest =>
    let r := playChunk s now dur
    let rr := scheduleRun r.1 rest
    (rr.1, r.2 :: rr.2)

/-- Relation between consecutive (submission, slot) pairs of a
scheduling run: the later slot starts at `max(clock, end of previous)`,
never overlaps its predecessor, has a later-or-equal end, and abuts the
predecessor exactly when it was submitted before the predecessor ended. -/
def chunkChain (p q : (ℚ × ℚ) × Slot) : Prop :=
  q.2.start = max q.1.1 (slotEnd p.2)
  ∧ slotEnd p.2 ≤ q.2.start
  ∧ slotEnd p.2 ≤ slotEnd q.2
  ∧ (q.1.1 ≤ slotEnd p.2 → q.2.start = slotEnd p.2)

lemma scheduleRun_chain (chunks : List (ℚ × ℚ)) (s : PlayState)
    (hd : ∀ c ∈ chunks, 0 ≤ c.2) :
    List.Chain' chunkChain (chunks.zip (scheduleRun s chunks).2)
    ∧ ∀ pr ∈ (chunks.zip (scheduleRun s chunks).2).head?,
        pr.2.start = max pr.1.1 s.nextStartTime ∧ pr.2.dur = pr.1.2 := by
  induction chunks generalizing s with
  | nil => simp [scheduleRun]
  | cons c rest ih =>
    obtain ⟨now, dur⟩ := c
    have hd' : ∀ c ∈ rest, 0 ≤ c.2 := fun c hc => hd c (List.mem_cons_of_mem _ hc)
    have hrun : (scheduleRun s ((now, dur) :: rest)).2
        = (⟨max now s.nextStartTime, dur⟩ : Slot) ::
          (scheduleRun ⟨max now s.nextStartTime + dur,
            s.sources ++ [⟨max now s.nextStartTime, dur⟩]⟩ rest).2 := rfl
    obtain ⟨ihChain, ihHead⟩ := ih ⟨max now s.nextStartTime + dur,
      s.sources ++ [⟨max now s.nextStartTime, dur⟩]⟩ hd'
    rw [hrun, List.zip_cons_cons]
    constructor
    · rw [List.chain'_cons']
      refine ⟨?_, ihChain⟩
      intro b hb
      obtain ⟨bc, bs⟩ := b
      obtain ⟨hb1, hb2⟩ := ihHead (bc, bs) hb
      dsimp only at hb1 hb2
      have hmem : (bc, bs) ∈ rest.zip (scheduleRun ⟨max now s.nextStartTime + dur,
          s.sources ++ [⟨max now s.nextStartTime, dur⟩]⟩ rest).2 :=
        List.mem_of_mem_head? hb
      have hdurb : 0 ≤ bs.dur := by
        rw [hb2]
        exact hd' bc (List.of_mem_zip hmem).1
      have hend : slotEnd ⟨max now s.nextStartTime, dur⟩
          = max now s.nextStartTime + dur := rfl
      refine ⟨?_, ?_, ?_, ?_⟩
      · rw [hend]
        exact hb1
      · rw [hend, hb1]
        exact le_max_right _ _
      · rw [hend]
        calc max now s.nextStartTime + dur ≤ bs.start := by
              rw [hb1]; exact le_max_right _ _
          _ ≤ slotEnd bs := le_add_of_nonneg_right hdurb
      · intro hle
        rw [hend] at hle ⊢
        rw [hb1]
        exact max_eq_right hle
    · intro pr hpr
      simp only [List.head?_cons, Option.mem_def, Option.some.injEq] at hpr
      subst hpr
      exact ⟨rfl, rfl⟩

/-- C2: for any submission sequence with non-negative durations, every
adjacent pair of scheduled slots satisfies `chunkChain`: start =
max(clock, previous end), no overlap, non-decreasing end times, and
gapless continuation whenever the chunk arrives before its predecessor
ends. -/
theorem playback_gapless_schedule (s : PlayState) (chunks : List (ℚ × ℚ))
    (hd : ∀ c ∈ chunks, 0 ≤ c.2) :
    List.Chain' chunkChain (chunks.zip (scheduleRun s chunks).2) :=
  (scheduleRun_chain chunks s hd).1

theorem playback_gapless_schedule_witness :
    List.Chain' chunkChain
      (([((0 : ℚ), (1 : ℚ)), (1/2, 2), (4, 1)]).zip
        (scheduleRun ⟨0, []⟩ [((0 : ℚ), (1 : ℚ)), (1/2, 2), (4, 1)]).2) :=
  playback_gapless_schedule ⟨0, []⟩ _ (by norm_num)

/-- C3: the interruption handler stops and discards every
scheduled/playing source, empties the set, resets the scheduling clock,
and the next submitted chunk starts exactly at the output clock at
submission time. -/
theorem interrupt_resets_schedule (s : PlayState) (now dur : ℚ) (hnow : 0 ≤ now) :
    (stopAudioOutput s).2 = s.sources
    ∧ (stopAudioOutput s).1.sources = []
    ∧ (stopAudioOutput s).1.nextStartTime = 0
    ∧ (playChunk (stopAudioOutput s).1 now dur).2.start = now := by
  refine ⟨rfl, rfl, rfl, ?_⟩
  simp [playChunk, stopAudioOutput, max_eq_left hnow]

theorem interrupt_resets_schedule_witness :
    (stopAudioOutput ⟨7, [⟨0, 7⟩]⟩).2 = [⟨0, 7⟩]
    ∧ (stopAudioOutput ⟨7, [⟨0, 7⟩]⟩).1.sources = []
    ∧ (stopAudioOutput ⟨7, [⟨0, 7⟩]⟩).1.nextStartTime = 0
    ∧ (playChunk (stopAudioOutput ⟨7, [⟨0, 7⟩]⟩).1 3 2).2.start = 3 :=
  interrupt_resets_schedule ⟨7, [⟨0, 7⟩]⟩ 3 2 (by norm_num)

/-- C9: once the connected flag is cleared, a live capture callback is
a complete no-op (entry check); a payload whose session promise
resolves after teardown is not sent either (second check); the
continuous session drops frames the same way, and its `disconnect`
clears both the flag and the pending buffer. -/
theorem no_audio_after_teardown :
    (∀ s samples now, s.isConnected = false →
        captureCallback s samples now = ⟨s, none, false⟩)
    ∧ (∀ p, deliverSend false p = none)
    ∧ (∀ s samples now, s.isConnected = false → onFrame s samples now = (s, none))
    ∧ (∀ s, (contDisconnect s).isConnected = false ∧ (contDisconnect s).buffer = []) := by
  refine ⟨?_, ?_, ?_, ?_⟩
  · intro s samples now h
    simp [captureCallback, h]
  · intro p
    cases p <;> simp [deliverSend]
  · intro s samples now h
    simp [onFrame, h]
  · intro s
    exact ⟨rfl, rfl⟩

theorem no_audio_after_teardown_witness :
    captureCallback ⟨false, 0, false⟩ [1] 5 = ⟨⟨false, 0, false⟩, none, false⟩
    ∧ deliverSend false (some [1]) = none
    ∧ onFrame ⟨false, [], 0, false, 0, 16000⟩ [1] 5 = (⟨false, [], 0, false, 0, 16000⟩, none) :=
  ⟨no_audio_after_teardown.1 _ _ _ rfl, no_audio_after_teardown.2.1 _,
    no_audio_after_teardown.2.2.1 _ _ _ rfl⟩
